import Mathlib

/-
Verification of the tabular filter-join pipeline of `src/streamlit_app.py`
(Water Quality Data Explorer).

The script loads two CSV frames (a location registry `location_df` and a
measurement log `wq_df`), selects the rows of one contaminant, coerces the
value column to numbers and the date column to timestamps dropping rows that
fail to parse, filters by a value range and a date range, inner-joins the
result against the location registry on the shared identifier column, and
renders a map (markers plus a mean centre) and a per-station trend chart.

The embedding models a dataframe as a list of records whose cells carry the
dynamic typing of a pandas object column: a cell is a raw string, a number,
a timestamp, or null (NaN/NaT).  Numbers are exact decimals `mant / 10^exp`
(the CSV carries decimal literals, and every arithmetic step the claims
evaluate is order comparison, which is exact); timestamps are calendar
dates ordered by their year/month/day key, the order pandas uses at the day
granularity this script works at.  String minima/maxima (the raw date
column) use code-point lexicographic order, which is how pandas compares
Python strings.

Because `pd.to_numeric` can also produce IEEE infinities — which are not
missing values and survive `dropna` — a refined model (`PyFloat`, `FRow`)
carries the non-finite case explicitly; the coercion invariant is settled
against that refined model.
-/

namespace WaterQuality

/-! ### Column names (script lines 14-20) -/

def LOCATION_ID_COL_LOC : String := "MonitoringLocationIdentifier"

def LATITUDE_COL : String := "LatitudeMeasure"

def LONGITUDE_COL : String := "LongitudeMeasure"

def LOCATION_ID_COL_WQ : String := "MonitoringLocationIdentifier"

def CONTAMINANT_COL : String := "CharacteristicName"

def VALUE_COL : String := "ResultMeasureValue"

def DATE_COL : String := "ActivityStartDate"

/-! ### Numbers, dates, string order -/

/-- An exact decimal number `mant / 10 ^ exp`, the value of a CSV decimal
literal. -/
structure Dec where
  mant : Int
  exp : Nat
deriving DecidableEq, Repr

/-- `10 ^ n` as an integer, by structural recursion. -/
def pow10 : Nat → Int
  | 0 => 1
  | n + 1 => 10 * pow10 n

/-- Numeric comparison of two decimals by cross multiplication. -/
def Dec.le (a b : Dec) : Prop := a.mant * pow10 b.exp ≤ b.mant * pow10 a.exp

instance : LE Dec := ⟨Dec.le⟩

instance decidableDecLe : DecidableRel (fun a b : Dec => a ≤ b) :=
  fun a b => Int.decLe (a.mant * pow10 b.exp) (b.mant * pow10 a.exp)

/-- The rational value of a decimal (used only for the map-centre mean). -/
def Dec.toRat (a : Dec) : Rat := (a.mant : Rat) / ((pow10 a.exp : Int) : Rat)

/-- A calendar date, the day-granularity timestamp `pd.to_datetime` produces
for the `YYYY-MM-DD` strings of the measurement log. -/
structure Date where
  year : Nat
  month : Nat
  day : Nat
deriving DecidableEq, Repr

/-- Encoding of a date as a single natural number; the lexicographic
(year, month, day) order coincides with the order of the keys. -/
def Date.key (d : Date) : Nat := d.year * 10000 + d.month * 100 + d.day

/-- Timestamp comparison, as pandas orders day-granularity timestamps. -/
def Date.le (a b : Date) : Bool := a.key ≤ b.key

/-- Code-point lexicographic comparison of character lists, the order Python
(and hence pandas `.min()`/`.max()` on an object column) puts on strings. -/
def lexLeChars : List Char → List Char → Bool
  | [], _ => true
  | _ :: _, [] => false
  | a :: as, b :: bs =>
    if a.toNat < b.toNat then true
    else if b.toNat < a.toNat then false
    else lexLeChars as bs

/-- Lexicographic comparison of strings. -/
def strLe (a b : String) : Bool := lexLeChars a.toList b.toList

/-- `Series.min()`: the least element of a list under a boolean comparison,
`none` on the empty list. -/
def foldMin {α : Type} (le : α → α → Bool) : List α → Option α
  | [] => none
  | x :: xs =>
    match foldMin le xs with
    | none => some x
    | some m => some (if le x m then x else m)

/-- `Series.max()`: the greatest element, as the least of the flipped order. -/
def foldMax {α : Type} (le : α → α → Bool) (xs : List α) : Option α :=
  foldMin (fun a b => le b a) xs

/-! ### Cells and rows -/

/-- One cell of a pandas object column: a raw string from the CSV, a coerced
number, a coerced timestamp, or a missing value (NaN / NaT). -/
inductive Cell where
  | str : String → Cell
  | num : Dec → Cell
  | ts : Date → Cell
  | null : Cell
deriving DecidableEq, Repr

/-- A row of the measurement frame `wq_df`: identifier, contaminant name and
the (initially raw) value and date cells. -/
structure Row where
  locId : String
  contaminant : String
  value : Cell
  date : Cell
deriving DecidableEq, Repr

/-- A row of the location frame `location_df`. -/
structure LocRow where
  locId : String
  latitude : Dec
  longitude : Dec
deriving DecidableEq, Repr

/-- A row of `merged_df`: a location row paired with a measurement row that
shares its identifier. -/
structure MergedRow where
  loc : LocRow
  wq : Row
deriving DecidableEq, Repr

/-! ### Coercion (models of `pd.to_numeric` / `pd.to_datetime` with
`errors="coerce"`, restricted to the plain decimal and ISO-date literals the
measurement CSV carries; any string outside that fragment coerces to null) -/

/-- Value of a digit string. -/
def digitsToNat (cs : List Char) : Nat :=
  cs.foldl (fun a c => a * 10 + (c.toNat - 48)) 0

/-- The character list is non-empty and all digits. -/
def allDigits (cs : List Char) : Bool :=
  !cs.isEmpty && cs.all (fun c => c.isDigit)

/-- Parse an unsigned decimal literal (digits, optionally a dot and digits):
the mantissa is all the digits, the exponent the number of fraction digits. -/
def parseUnsignedDecimal (cs : List Char) : Option Dec :=
  let ip := cs.takeWhile (fun c => c ≠ '.')
  match cs.dropWhile (fun c => c ≠ '.') with
  | [] => if allDigits ip then some ⟨(digitsToNat ip : Int), 0⟩ else none
  | _ :: fp =>
    if allDigits ip && allDigits fp then
      some ⟨(digitsToNat (ip ++ fp) : Int), fp.length⟩
    else none

/-- Model of `pd.to_numeric(x, errors="coerce")` restricted to the FINITE
fragment: a decimal literal parses to its exact value, anything else to
missing (NaN).  This restriction is deliberate and visible: strings such as
"inf" or "-Infinity", which `pd.to_numeric` maps to retained IEEE
infinities rather than NaN, are outside this fragment and are handled by
the refined model `parseFloat` below, on which the coercion invariant is
settled. -/
def parseDecimal (s : String) : Option Dec :=
  match s.toList with
  | '-' :: cs => (parseUnsignedDecimal cs).map (fun q => ⟨-q.mant, q.exp⟩)
  | cs => parseUnsignedDecimal cs

/-- Split a character list at a separator character. -/
def splitOnChar (sep : Char) : List Char → List (List Char)
  | [] => [[]]
  | c :: cs =>
    let rest := splitOnChar sep cs
    if c = sep then [] :: rest
    else
      match rest with
      | [] => [[c]]
      | g :: gs => (c :: g) :: gs

/-- Model of `pd.to_datetime(x, errors="coerce")` on one raw string: an ISO
`YYYY-MM-DD` literal with a plausible month and day parses to a date,
anything else to missing (NaT). -/
def parseDate (s : String) : Option Date :=
  match splitOnChar '-' s.toList with
  | [y, m, d] =>
    if allDigits y && allDigits m && allDigits d then
      let mo := digitsToNat m
      let da := digitsToNat d
      if 1 ≤ mo ∧ mo ≤ 12 ∧ 1 ≤ da ∧ da ≤ 31 then
        some ⟨digitsToNat y, mo, da⟩
      else none
    else none
  | _ => none

/-- `pd.to_numeric(errors="coerce")` on one cell: strings parse or become
null, numbers pass through, anything else becomes null. -/
def coerceNumCell : Cell → Cell
  | .str s => (parseDecimal s).elim Cell.null Cell.num
  | .num q => .num q
  | _ => .null

/-- `pd.to_datetime(errors="coerce")` on one cell: strings parse or become
null, timestamps pass through, anything else becomes null. -/
def coerceDateCell : Cell → Cell
  | .str s => (parseDate s).elim Cell.null Cell.ts
  | .ts t => .ts t
  | _ => .null

/-! ### The pipeline (script lines 42-96) -/

/-- Line 42: `contaminant_df = wq_df[wq_df[CONTAMINANT_COL] == selected].copy()`. -/
def selectContaminant (wq : List Row) (selected : String) : List Row :=
  wq.filter (fun r => r.contaminant == selected)

/-- Line 45: `contaminant_df[VALUE_COL] = pd.to_numeric(contaminant_df[VALUE_COL], errors="coerce")`. -/
def toNumericValueCol (rows : List Row) : List Row :=
  rows.map (fun r => { r with value := coerceNumCell r.value })

/-- Line 46: `contaminant_df.dropna(subset=[VALUE_COL], inplace=True)`. -/
def dropnaValue (rows : List Row) : List Row :=
  rows.filter (fun r => r.value ≠ Cell.null)

/-- Line 49: `contaminant_df[DATE_COL] = pd.to_datetime(contaminant_df[DATE_COL], errors="coerce")`. -/
def toDatetimeDateCol (rows : List Row) : List Row :=
  rows.map (fun r => { r with date := coerceDateCell r.date })

/-- Line 50: `contaminant_df.dropna(subset=[DATE_COL], inplace=True)`. -/
def dropnaDate (rows : List Row) : List Row :=
  rows.filter (fun r => r.date ≠ Cell.null)

/-- Lines 42-50: the selected-contaminant subset after both coercion passes,
the state of `contaminant_df` when the range widgets are built. -/
def contaminantRows (wq : List Row) (selected : String) : List Row :=
  dropnaDate (toDatetimeDateCol (dropnaValue (toNumericValueCol (selectContaminant wq selected))))

/-- The numeric value of a cell, if it is a number. -/
def cellNum : Cell → Option Dec
  | .num q => some q
  | _ => none

/-- The timestamp of a cell, if it is one. -/
def cellDate : Cell → Option Date
  | .ts t => some t
  | _ => none

/-- The coerced numeric values of a frame's value column. -/
def valueColumn (rows : List Row) : List Dec :=
  rows.filterMap (fun r => cellNum r.value)

/-- Boolean form of the decimal order, for the min/max folds. -/
def decLeb (a b : Dec) : Bool := decide (a ≤ b)

/-- Line 58: `float(contaminant_df[VALUE_COL].min()) if not ... .empty else 0.0`. -/
def min_val_contaminant (cont : List Row) : Dec :=
  (foldMin decLeb (valueColumn cont)).getD ⟨0, 0⟩

/-- Line 59: `float(contaminant_df[VALUE_COL].max()) if not ... .empty else 1.0`. -/
def max_val_contaminant (cont : List Row) : Dec :=
  (foldMax decLeb (valueColumn cont)).getD ⟨1, 0⟩

/-- The raw (uncoerced) strings of the date column of the full measurement
frame, which is what lines 69-70 read: `wq_df[DATE_COL]`, not the coerced
column of `contaminant_df`. -/
def rawDateStrings (wq : List Row) : List String :=
  wq.filterMap (fun r => match r.date with | .str s => some s | _ => none)

/-- Line 69: `min_date = wq_df[DATE_COL].min()` — the lexicographically least
raw date string of the whole measurement frame. -/
def min_date (wq : List Row) : Option String :=
  foldMin strLe (rawDateStrings wq)

/-- Line 70: `max_date = wq_df[DATE_COL].max()`. -/
def max_date (wq : List Row) : Option String :=
  foldMax strLe (rawDateStrings wq)

/-- The row predicate of lines 76-79.  A pandas comparison against a cell
that is not a number (resp. not a timestamp) is False, so such rows are
dropped by the mask. -/
def keepRow (minv maxv : Dec) (sd ed : Date) (r : Row) : Bool :=
  match r.value, r.date with
  | .num v, .ts t => decide (minv ≤ v) && decide (v ≤ maxv) && sd.le t && t.le ed
  | _, _ => false

/-- Lines 75-80: `filtered_wq_df = contaminant_df[(value >= min_val) & (value <= max_val)
& (date >= start_date) & (date <= end_date)].copy()`. -/
def filtered_wq (cont : List Row) (minv maxv : Dec) (sd ed : Date) : List Row :=
  cont.filter (keepRow minv maxv sd ed)

/-- Lines 90-96: `merged_df = pd.merge(location_df, filtered_wq_df,
left_on=..., right_on=..., how="inner")`.  An inner merge pairs each left
(location) row with every right (filtered) row sharing its identifier,
keeping the left frame's order. -/
def merged (loc : List LocRow) (filtered : List Row) : List MergedRow :=
  loc.flatMap (fun l => (filtered.filter (fun r => r.locId == l.locId)).map (fun r => ⟨l, r⟩))

/-! ### Rendering outputs (script lines 88-128) -/

/-- One folium marker of line 105: position and popup label. -/
structure Marker where
  latitude : Dec
  longitude : Dec
  popup : String
deriving DecidableEq, Repr

/-- Lines 104-105: one marker per merged row, at the row's location
coordinates, labeled with the identifier. -/
def markers (m : List MergedRow) : List Marker :=
  m.map (fun row => ⟨row.loc.latitude, row.loc.longitude, row.wq.locId⟩)

/-- Mean of a list of decimals (`Series.mean`), as an exact rational. -/
def decMean (xs : List Dec) : Rat :=
  (xs.map Dec.toRat).sum / (xs.length : Rat)

/-- Lines 101-102: the map centre, the mean latitude/longitude over the
merged rows. -/
def mapCentre (m : List MergedRow) : Rat × Rat :=
  (decMean (m.map (fun r => r.loc.latitude)), decMean (m.map (fun r => r.loc.longitude)))

/-- First-occurrence distinct elements, the order `Series.unique` returns. -/
def uniqueSitesAux (seen : List String) : List String → List String
  | [] => []
  | s :: rest =>
    if s ∈ seen then uniqueSitesAux seen rest
    else s :: uniqueSitesAux (s :: seen) rest

/-- Line 115: `filtered_wq_df[LOCATION_ID_COL_WQ].unique()`. -/
def uniqueSites (ids : List String) : List String :=
  uniqueSitesAux [] ids

/-- The date key a row sorts by in `sort_values(by=DATE_COL)`; coerced rows
always carry a timestamp. -/
def rowDateKey (r : Row) : Nat :=
  match r.date with
  | .ts t => t.key
  | _ => 0

/-- The comparison `sort_values(by=DATE_COL)` sorts by (ascending). -/
def rowDateRel (a b : Row) : Prop := rowDateKey a ≤ rowDateKey b

instance : DecidableRel rowDateRel := fun a b => Nat.decLe (rowDateKey a) (rowDateKey b)

instance : IsTotal Row rowDateRel := ⟨fun a b => Nat.le_total (rowDateKey a) (rowDateKey b)⟩

instance : IsTrans Row rowDateRel := ⟨fun _ _ _ => Nat.le_trans⟩

/-- Line 116: the rows of one station, sorted by date ascending
(`sort_values` is not required to be stable; any reordering that sorts by
the date key is a faithful model). -/
def siteData (filtered : List Row) (site : String) : List Row :=
  List.insertionSort rowDateRel (filtered.filter (fun r => r.locId == site))

/-- Lines 115-117: the trend input — one (station, date-sorted series) per
distinct identifier of the filtered, unjoined frame. -/
def trendGroups (filtered : List Row) : List (String × List Row) :=
  (uniqueSites (filtered.map (fun r => r.locId))).map (fun s => (s, siteData filtered s))

/-- A user-facing message emitted by the script. -/
inductive Msg where
  | info : String → Msg
  | warning : String → Msg
  | err : String → Msg
deriving DecidableEq, Repr

/-- Line 128: the `st.info` text shown when the filtered frame is empty. -/
def noDataMsg : String :=
  "No data found for the selected contaminant within the specified value and date ranges."

/-- Line 110: the `st.warning` text shown when the merge is empty. -/
def noStationsMsg : String :=
  "No monitoring stations found with the selected contaminant in the specified range."

/-- The two output views plus the emitted messages. -/
structure Output where
  markers : List Marker
  centre : Option (Rat × Rat)
  trend : List (String × List Row)
  msgs : List Msg
deriving DecidableEq, Repr

/-- Lines 42-128: one full run of the pipeline for a selection and ranges.
If the filtered frame is empty only the info message is emitted (line 128);
otherwise the merge decides between the map outputs and the warning
(lines 98-110), and the trend is drawn from the filtered frame either way
(lines 112-125). -/
def runPipeline (loc : List LocRow) (wq : List Row) (selected : String)
    (minv maxv : Dec) (sd ed : Date) : Output :=
  let cont := contaminantRows wq selected
  let filtered := filtered_wq cont minv maxv sd ed
  if filtered.isEmpty then
    { markers := [], centre := none, trend := [], msgs := [.info noDataMsg] }
  else
    let m := merged loc filtered
    if m.isEmpty then
      { markers := [], centre := none, trend := trendGroups filtered,
        msgs := [.warning noStationsMsg] }
    else
      { markers := markers m, centre := some (mapCentre m),
        trend := trendGroups filtered, msgs := [] }

/-! ### Heap model of the script's bindings and in-place updates
(for the frame-effect property: the script's only in-place operations —
the two column assignments and the two `dropna(inplace=True)` — hit
`contaminant_df`, which line 42 created with `.copy()`). -/

/-- A python object on the heap: one of the script's frames. -/
inductive Obj where
  | wqFrame : List Row → Obj
  | locFrame : List LocRow → Obj
  | mgFrame : List MergedRow → Obj
deriving DecidableEq, Repr

/-- The heap: addresses to frame objects. -/
def Heap : Type := Nat → Option Obj

/-- Bind an address to a (new) object. -/
def Heap.upd (h : Heap) (i : Nat) (o : Obj) : Heap :=
  fun j => if j = i then some o else h j

/-- Mutate the measurement frame stored at an address in place (the pandas
`inplace=True` / column-assignment operations). -/
def Heap.modifyRows (h : Heap) (i : Nat) (f : List Row → List Row) : Heap :=
  match h i with
  | some (.wqFrame rows) => h.upd i (.wqFrame (f rows))
  | _ => h

/-- The addresses the script's dataframe names are bound to. -/
structure Addrs where
  loc_df : Nat
  wq_df : Nat
  contaminant_df : Nat
  filtered_df : Nat
  merged_df : Nat

/-- Lines 22-96 as heap steps.  `location_df` and `wq_df` live at addresses
0 and 1; line 42's `.copy()` allocates the fresh address 2 for
`contaminant_df`, lines 45-50 mutate that address in place, line 80's
`.copy()` allocates address 3 for `filtered_wq_df`, and the merge of lines
90-96 allocates address 4. -/
def runScriptHeap (loc : List LocRow) (wq : List Row) (selected : String)
    (minv maxv : Dec) (sd ed : Date) : Heap × Addrs :=
  let a : Addrs := ⟨0, 1, 2, 3, 4⟩
  let h0 : Heap := fun i =>
    if i = 0 then some (.locFrame loc)
    else if i = 1 then some (.wqFrame wq) else none
  let h1 := h0.upd a.contaminant_df (.wqFrame (selectContaminant wq selected))
  let h2 := h1.modifyRows a.contaminant_df toNumericValueCol
  let h3 := h2.modifyRows a.contaminant_df dropnaValue
  let h4 := h3.modifyRows a.contaminant_df toDatetimeDateCol
  let h5 := h4.modifyRows a.contaminant_df dropnaDate
  let h6 :=
    match h5 a.contaminant_df with
    | some (.wqFrame rows) =>
      h5.upd a.filtered_df (.wqFrame (filtered_wq rows minv maxv sd ed))
    | _ => h5
  let h7 :=
    match h6 a.filtered_df, h6 a.loc_df with
    | some (.wqFrame f), some (.locFrame l) =>
      h6.upd a.merged_df (.mgFrame (merged l f))
    | _, _ => h6
  (h7, a)

/-! ### Column-access model of the script's control flow
(for the missing-column error behaviour).  Here a frame is just its set of
column names; a column access either succeeds or raises `KeyError`, and the
only handler in the script is the `try/except KeyError` around the map block
(lines 100-108).  The outcomes of the data-dependent emptiness branches are
abstracted as boolean parameters. -/

/-- The python exception the script can raise: `KeyError` on a missing
column. -/
inductive PyErr where
  | keyError : String → PyErr
deriving DecidableEq, Repr

/-- A frame reduced to its column names. -/
structure Cols where
  cols : List String
deriving DecidableEq, Repr

/-- A column access: `KeyError` when the column is absent. -/
def getCol (f : Cols) (c : String) : Except PyErr Unit :=
  if c ∈ f.cols then .ok () else .error (.keyError c)

/-- Line 108: the `st.error` text of the handled latitude/longitude
`KeyError`, naming the missing column. -/
def latLonErrMsg (c : String) : Msg :=
  .err ("Error: Could not find latitude or longitude columns in the merged data: " ++ c)

/-- Lines 37-128 as a sequence of column accesses.  Reads happen in source
order: the contaminant column at lines 38/42, the value column at line 45,
the date column at line 49; if the filtered frame is non-empty the merge of
lines 90-96 reads the join keys of both frames; if the merge is non-empty
the map block reads latitude then longitude from the merged frame inside the
`try/except KeyError`, whose handler emits the `st.error` message; every
other `KeyError` propagates uncaught. -/
def runColScript (locCols wqCols : Cols) (filteredNonempty mergedNonempty : Bool) :
    Except PyErr (List Msg) := do
  let _ ← getCol wqCols CONTAMINANT_COL
  let _ ← getCol wqCols CONTAMINANT_COL
  let _ ← getCol wqCols VALUE_COL
  let _ ← getCol wqCols DATE_COL
  if filteredNonempty then
    let _ ← getCol locCols LOCATION_ID_COL_LOC
    let _ ← getCol wqCols LOCATION_ID_COL_WQ
    let mergedCols : Cols := ⟨locCols.cols ++ wqCols.cols⟩
    if mergedNonempty then
      match getCol mergedCols LATITUDE_COL with
      | .error (.keyError c) => pure [latLonErrMsg c]
      | .ok _ =>
        match getCol mergedCols LONGITUDE_COL with
        | .error (.keyError c) => pure [latLonErrMsg c]
        | .ok _ => pure []
    else
      pure [.warning noStationsMsg]
  else
    pure [.info noDataMsg]

/-! ### Derived forms and concrete frames -/

/-- The per-row outcome of the two coercion passes of lines 44-50: the row
with both cells coerced when both parse, `none` (row dropped) otherwise. -/
def coerceRow (r : Row) : Option Row :=
  match coerceNumCell r.value, coerceDateCell r.date with
  | .num v, .ts t => some { r with value := .num v, date := .ts t }
  | _, _ => none

/-- The measurement frame of the spec's scenario: row A parses, row B has an
unparseable value. -/
def exWq : List Row :=
  [⟨"A", "Lead", .str "12.5", .str "2020-01-01"⟩,
   ⟨"B", "Lead", .str "abc", .str "2020-02-01"⟩]

/-- The location frame of the spec's scenario: station A at (40.0, -74.0). -/
def exLoc : List LocRow := [⟨"A", ⟨40, 0⟩, ⟨-74, 0⟩⟩]

/-- A location frame carrying the same identifier twice. -/
def dupLoc : List LocRow := [⟨"A", ⟨1, 0⟩, ⟨2, 0⟩⟩, ⟨"A", ⟨3, 0⟩, ⟨4, 0⟩⟩]

/-- A measurement frame whose only Lead row is dated after another
contaminant's row. -/
def exWq4 : List Row :=
  [⟨"A", "Lead", .str "3.5", .str "2020-05-05"⟩,
   ⟨"B", "Arsenic", .str "1.0", .str "2019-01-01"⟩]

/-- A measurement frame whose only Lead row has an unparseable value, so the
coerced Lead subset is empty. -/
def exWqBadLead : List Row := [⟨"A", "Lead", .str "abc", .str "2020-01-01"⟩]

/-- The scenario's surviving row after coercion: value 12.5, date
2020-01-01. -/
def rowA : Row := ⟨"A", "Lead", .num ⟨125, 1⟩, .ts ⟨2020, 1, 1⟩⟩

/-- A measurement frame whose only station, B, has no row in the location
frame `exLoc`. -/
def exWq5 : List Row := [⟨"B", "Lead", .str "1.0", .str "2020-01-01"⟩]

/-- The coerced form of `exWq5`'s row. -/
def rowB5 : Row := ⟨"B", "Lead", .num ⟨10, 1⟩, .ts ⟨2020, 1, 1⟩⟩

/-- Modelled from the spec's words, for comparison with the code's
`min_date`: the observed minimum of the COERCED date field of the
selected-contaminant subset, which is where the claim says the default start
date comes from. -/
def minDateOfSubsetSpec (wq : List Row) (selected : String) : Option Date :=
  foldMin (fun a b => a.le b)
    ((contaminantRows wq selected).filterMap (fun r => cellDate r.date))

/-- A location frame with all three expected columns. -/
def fullLocCols : Cols := ⟨[LOCATION_ID_COL_LOC, LATITUDE_COL, LONGITUDE_COL]⟩

/-- A measurement frame with all four expected columns. -/
def fullWqCols : Cols := ⟨[LOCATION_ID_COL_WQ, CONTAMINANT_COL, VALUE_COL, DATE_COL]⟩

/-- A measurement frame missing the contaminant column. -/
def wqColsNoCont : Cols := ⟨[LOCATION_ID_COL_WQ, VALUE_COL, DATE_COL]⟩

/-- A location frame missing the latitude column. -/
def locColsNoLat : Cols := ⟨[LOCATION_ID_COL_LOC, LONGITUDE_COL]⟩

/-! ### Refined numeric model with non-finite floats

`pd.to_numeric(errors="coerce")` does not only produce finite numbers and
NaN: python float literals such as "inf" or "-Infinity" parse to IEEE
infinities, which are NOT missing values, so line 46's
`dropna(subset=[VALUE_COL])` RETAINS them.  The refined model below carries
that case: a coerced float is a finite decimal or an infinity, NaN is the
null cell, and the coercion chain of lines 42-50 is replayed on rows whose
cells can hold such floats. -/

/-- A float as pandas holds it after `to_numeric`: a finite decimal value or
an IEEE infinity.  NaN is not a `PyFloat`; it is the null cell, which is
what `dropna` removes. -/
inductive PyFloat where
  | fin : Dec → PyFloat
  | inf : PyFloat
  | ninf : PyFloat
deriving DecidableEq, Repr

/-- Finiteness of a coerced float: exactly the finite decimals. -/
def PyFloat.isFinite : PyFloat → Bool
  | .fin _ => true
  | _ => false

/-- IEEE comparison of non-NaN floats: -inf below everything, +inf above
everything, finite values by their decimal order. -/
def PyFloat.leb : PyFloat → PyFloat → Bool
  | .ninf, _ => true
  | _, .inf => true
  | .fin a, .fin b => decide (a ≤ b)
  | _, _ => false

/-- Model of `pd.to_numeric(x, errors="coerce")` on one raw string,
including the non-finite outcomes: a decimal literal parses to its exact
finite value, the infinity literals python's `float()` accepts parse to
IEEE infinities (not NaN), anything else (in the modeled fragment) is
missing. -/
def parseFloat (s : String) : Option PyFloat :=
  if s = "inf" ∨ s = "Infinity" ∨ s = "+inf" ∨ s = "+Infinity" then some .inf
  else if s = "-inf" ∨ s = "-Infinity" then some .ninf
  else (parseDecimal s).map .fin

/-- One cell of the refined model: a raw string, a (possibly non-finite)
coerced float, a coerced timestamp, or a missing value (NaN / NaT). -/
inductive FCell where
  | str : String → FCell
  | num : PyFloat → FCell
  | ts : Date → FCell
  | null : FCell
deriving DecidableEq, Repr

/-- A measurement row of the refined model. -/
structure FRow where
  locId : String
  contaminant : String
  value : FCell
  date : FCell
deriving DecidableEq, Repr

/-- `pd.to_numeric(errors="coerce")` on one refined cell: strings parse to a
float (finite or infinite) or become null, floats pass through, anything
else becomes null. -/
def coerceNumCellF : FCell → FCell
  | .str s => (parseFloat s).elim FCell.null FCell.num
  | .num q => .num q
  | _ => .null

/-- `pd.to_datetime(errors="coerce")` on one refined cell. -/
def coerceDateCellF : FCell → FCell
  | .str s => (parseDate s).elim FCell.null FCell.ts
  | .ts t => .ts t
  | _ => .null

/-- Line 42 on refined rows. -/
def selectContaminantF (wq : List FRow) (selected : String) : List FRow :=
  wq.filter (fun r => r.contaminant == selected)

/-- Line 45 on refined rows. -/
def toNumericValueColF (rows : List FRow) : List FRow :=
  rows.map (fun r => { r with value := coerceNumCellF r.value })

/-- Line 46 on refined rows: only null (NaN) is dropped — an infinity is a
non-null float and survives. -/
def dropnaValueF (rows : List FRow) : List FRow :=
  rows.filter (fun r => r.value ≠ FCell.null)

/-- Line 49 on refined rows. -/
def toDatetimeDateColF (rows : List FRow) : List FRow :=
  rows.map (fun r => { r with date := coerceDateCellF r.date })

/-- Line 50 on refined rows. -/
def dropnaDateF (rows : List FRow) : List FRow :=
  rows.filter (fun r => r.date ≠ FCell.null)

/-- Lines 42-50 on refined rows: the coerced selected-contaminant subset. -/
def contaminantRowsF (wq : List FRow) (selected : String) : List FRow :=
  dropnaDateF (toDatetimeDateColF (dropnaValueF (toNumericValueColF (selectContaminantF wq selected))))

/-- The per-row outcome of both coercion passes on refined rows. -/
def coerceRowF (r : FRow) : Option FRow :=
  match coerceNumCellF r.value, coerceDateCellF r.date with
  | .num v, .ts t => some { r with value := .num v, date := .ts t }
  | _, _ => none

/-- Lines 75-80 on refined rows, with IEEE comparisons. -/
def keepRowF (minv maxv : PyFloat) (sd ed : Date) (r : FRow) : Bool :=
  match r.value, r.date with
  | .num v, .ts t => minv.leb v && v.leb maxv && sd.le t && t.le ed
  | _, _ => false

/-- The range-filtered subset on refined rows. -/
def filteredF (cont : List FRow) (minv maxv : PyFloat) (sd ed : Date) : List FRow :=
  cont.filter (keepRowF minv maxv sd ed)

/-- A measurement frame whose only Lead row carries the value literal
"inf": it coerces to a retained, non-finite float. -/
def exWqInf : List FRow := [⟨"A", "Lead", .str "inf", .str "2020-01-01"⟩]

/-- The coerced form of `exWqInf`'s row: value +infinity, date
2020-01-01. -/
def rowAInf : FRow := ⟨"A", "Lead", .num .inf, .ts ⟨2020, 1, 1⟩⟩

example : parseDecimal "12.5" = some ⟨125, 1⟩ := by decide
example : parseDecimal "abc" = none := by decide
example : parseDecimal "-74.0" = some ⟨-740, 1⟩ := by decide
example : parseDate "2020-01-01" = some ⟨2020, 1, 1⟩ := by decide
example : parseDate "not-a-date" = none := by decide
example : foldMin strLe ["2020-02-01", "2019-01-01"] = some "2019-01-01" := by decide
example : (⟨125, 1⟩ : Dec) ≤ ⟨13, 0⟩ := by decide

/-! ### Order lemmas -/

theorem pow10_pos (n : Nat) : 0 < pow10 n := by
  induction n with
  | zero => norm_num [pow10]
  | succ n ih => rw [pow10]; positivity

theorem Dec.le_refl (a : Dec) : a ≤ a := Int.le_refl _

theorem Dec.le_total (a b : Dec) : a ≤ b ∨ b ≤ a :=
  Int.le_total (a.mant * pow10 b.exp) (b.mant * pow10 a.exp)

theorem Dec.le_trans {a b c : Dec} (h1 : a ≤ b) (h2 : b ≤ c) : a ≤ c := by
  have hb := pow10_pos b.exp
  have h3 := mul_le_mul_of_nonneg_right h1 (le_of_lt (pow10_pos c.exp))
  have h4 := mul_le_mul_of_nonneg_right h2 (le_of_lt (pow10_pos a.exp))
  have h5 : a.mant * pow10 c.exp * pow10 b.exp ≤ c.mant * pow10 a.exp * pow10 b.exp := by
    ring_nf at h3 h4 ⊢
    linarith
  exact le_of_mul_le_mul_right h5 hb

theorem decLeb_total (a b : Dec) : decLeb a b = true ∨ decLeb b a = true := by
  simp only [decLeb, decide_eq_true_eq]
  exact Dec.le_total a b

theorem decLeb_trans {a b c : Dec} (h1 : decLeb a b = true) (h2 : decLeb b c = true) :
    decLeb a c = true := by
  simp only [decLeb, decide_eq_true_eq] at *
  exact Dec.le_trans h1 h2

theorem lexLeChars_total : ∀ as bs : List Char, lexLeChars as bs = true ∨ lexLeChars bs as = true
  | [], _ => Or.inl rfl
  | _ :: _, [] => Or.inr rfl
  | a :: as, b :: bs => by
    rcases Nat.lt_trichotomy a.toNat b.toNat with h | h | h
    · left; simp [lexLeChars, h]
    · rcases lexLeChars_total as bs with ih | ih
      · left; simp [lexLeChars, h, ih]
      · right; simp [lexLeChars, h.symm, ih]
    · right; simp [lexLeChars, h]

theorem lexLeChars_trans :
    ∀ as bs cs : List Char, lexLeChars as bs = true → lexLeChars bs cs = true →
      lexLeChars as cs = true
  | [], _, _, _, _ => rfl
  | _ :: _, [], _, h1, _ => by simp [lexLeChars] at h1
  | _ :: _, _ :: _, [], _, h2 => by simp [lexLeChars] at h2
  | a :: as, b :: bs, c :: cs, h1, h2 => by
    simp only [lexLeChars] at h1 h2 ⊢
    by_cases hac : a.toNat < c.toNat
    · simp [hac]
    · have hab : ¬ b.toNat < a.toNat := by
        intro h
        simp [Nat.lt_asymm h, h] at h1
      have hcb : ¬ c.toNat < b.toNat := by
        intro h
        simp [Nat.lt_asymm h, h] at h2
      have hab2 : ¬ a.toNat < b.toNat := by omega
      have hbc2 : ¬ b.toNat < c.toNat := by omega
      have hca : ¬ c.toNat < a.toNat := by omega
      rw [if_neg hab2, if_neg hab] at h1
      rw [if_neg hbc2, if_neg hcb] at h2
      rw [if_neg hac, if_neg hca]
      exact lexLeChars_trans as bs cs h1 h2

theorem strLe_total (a b : String) : strLe a b = true ∨ strLe b a = true :=
  lexLeChars_total a.toList b.toList

theorem strLe_trans {a b c : String} (h1 : strLe a b = true) (h2 : strLe b c = true) :
    strLe a c = true :=
  lexLeChars_trans a.toList b.toList c.toList h1 h2

/-! ### Min/max fold lemmas -/

theorem foldMin_eq_none {α : Type} {le : α → α → Bool} :
    ∀ {l : List α}, foldMin le l = none ↔ l = []
  | [] => by simp [foldMin]
  | x :: xs => by
    simp only [foldMin]
    cases foldMin le xs <;> simp

theorem foldMin_mem {α : Type} {le : α → α → Bool} :
    ∀ {l : List α} {m : α}, foldMin le l = some m → m ∈ l
  | [], _, h => by simp [foldMin] at h
  | x :: xs, m, h => by
    simp only [foldMin] at h
    cases hx : foldMin le xs with
    | none => rw [hx] at h; simp at h; simp [h]
    | some m2 =>
      rw [hx] at h
      simp only [Option.some.injEq] at h
      by_cases hc : le x m2 = true
      · rw [if_pos hc] at h; simp [← h]
      · rw [if_neg hc] at h
        exact List.mem_cons_of_mem x (foldMin_mem (h ▸ hx))

theorem foldMin_le {α : Type} {le : α → α → Bool}
    (htot : ∀ a b, le a b = true ∨ le b a = true)
    (htrans : ∀ {a b c}, le a b = true → le b c = true → le a c = true) :
    ∀ {l : List α} {m : α}, foldMin le l = some m → ∀ x ∈ l, le m x = true
  | [], _, h => by simp [foldMin] at h
  | x :: xs, m, h => by
    simp only [foldMin] at h
    cases hx : foldMin le xs with
    | none =>
      rw [hx] at h
      simp only [Option.some.injEq] at h
      have hnil : xs = [] := foldMin_eq_none.mp hx
      subst hnil h
      intro y hy
      simp at hy
      subst hy
      rcases htot y y with ht | ht <;> exact ht
    | some m2 =>
      rw [hx] at h
      simp only [Option.some.injEq] at h
      have ih := foldMin_le htot htrans hx
      intro y hy
      by_cases hc : le x m2 = true
      · have hm : m = x := by rw [← h, if_pos hc]
        rw [hm]
        rcases List.mem_cons.mp hy with hyx | hy2
        · rw [hyx]
          rcases htot x x with ht | ht <;> exact ht
        · exact htrans hc (ih y hy2)
      · have hm : m = m2 := by rw [← h, if_neg hc]
        rw [hm]
        rcases List.mem_cons.mp hy with hyx | hy2
        · rw [hyx]
          rcases htot x m2 with ht | ht
          · exact absurd ht hc
          · exact ht
        · exact ih y hy2

theorem foldMax_mem {α : Type} {le : α → α → Bool} {l : List α} {m : α}
    (h : foldMax le l = some m) : m ∈ l := by
  unfold foldMax at h
  exact foldMin_mem h

theorem foldMax_ge {α : Type} {le : α → α → Bool}
    (htot : ∀ a b, le a b = true ∨ le b a = true)
    (htrans : ∀ {a b c}, le a b = true → le b c = true → le a c = true)
    {l : List α} {m : α} (h : foldMax le l = some m) : ∀ x ∈ l, le x m = true := by
  unfold foldMax at h
  exact foldMin_le (fun a b => htot b a) (fun h1 h2 => htrans h2 h1) h

theorem foldMin_isSome {α : Type} {le : α → α → Bool} {l : List α} (h : l ≠ []) :
    ∃ m, foldMin le l = some m := by
  cases hx : foldMin le l with
  | none => exact absurd (foldMin_eq_none.mp hx) h
  | some m => exact ⟨m, rfl⟩

/-! ### Coercion lemmas -/

theorem coerceNumCell_num_or_null (c : Cell) :
    (∃ q, coerceNumCell c = .num q) ∨ coerceNumCell c = .null := by
  cases c with
  | str s =>
    cases h : parseDecimal s with
    | none => right; simp [coerceNumCell, h]
    | some q => left; exact ⟨q, by simp [coerceNumCell, h]⟩
  | num q => exact Or.inl ⟨q, rfl⟩
  | ts t => exact Or.inr rfl
  | null => exact Or.inr rfl

theorem coerceDateCell_ts_or_null (c : Cell) :
    (∃ t, coerceDateCell c = .ts t) ∨ coerceDateCell c = .null := by
  cases c with
  | str s =>
    cases h : parseDate s with
    | none => right; simp [coerceDateCell, h]
    | some t => left; exact ⟨t, by simp [coerceDateCell, h]⟩
  | num q => exact Or.inr rfl
  | ts t => exact Or.inl ⟨t, rfl⟩
  | null => exact Or.inr rfl

theorem coercion_chain (l : List Row) :
    dropnaDate (toDatetimeDateCol (dropnaValue (toNumericValueCol l)))
      = l.filterMap coerceRow := by
  induction l with
  | nil => rfl
  | cons a l ih =>
    rcases coerceNumCell_num_or_null a.value with ⟨q, hq⟩ | hq
    · rcases coerceDateCell_ts_or_null a.date with ⟨t, ht⟩ | ht
      · simp only [toNumericValueCol, dropnaValue, toDatetimeDateCol, dropnaDate] at ih ⊢
        simp [List.filter_cons, hq, ht, coerceRow]
        simpa using ih
      · simp only [toNumericValueCol, dropnaValue, toDatetimeDateCol, dropnaDate] at ih ⊢
        simp [List.filter_cons, hq, ht, coerceRow]
        simpa using ih
    · simp only [toNumericValueCol, dropnaValue, toDatetimeDateCol, dropnaDate] at ih ⊢
      simp [List.filter_cons, hq, coerceRow]
      simpa using ih

theorem coerceRow_shape {a r : Row} (h : coerceRow a = some r) :
    (∃ v, r.value = .num v) ∧ (∃ t, r.date = .ts t) := by
  unfold coerceRow at h
  split at h
  · rename_i v t hv ht
    cases h
    exact ⟨⟨v, rfl⟩, ⟨t, rfl⟩⟩
  · simp at h

theorem mem_contaminantRows {wq : List Row} {selected : String} {r : Row} :
    r ∈ contaminantRows wq selected ↔
      ∃ a ∈ selectContaminant wq selected, coerceRow a = some r := by
  rw [contaminantRows, coercion_chain]
  exact List.mem_filterMap

theorem mem_contaminantRows_shape {wq : List Row} {selected : String} {r : Row}
    (h : r ∈ contaminantRows wq selected) :
    (∃ v, r.value = .num v) ∧ (∃ t, r.date = .ts t) := by
  obtain ⟨a, _, ha⟩ := mem_contaminantRows.mp h
  exact coerceRow_shape ha

theorem mem_of_mem_filtered {cont : List Row} {minv maxv : Dec} {sd ed : Date} {r : Row}
    (h : r ∈ filtered_wq cont minv maxv sd ed) : r ∈ cont :=
  (List.mem_filter.mp h).1

/-! ### Coercion lemmas on the refined (non-finite-aware) model -/

theorem coerceNumCellF_num_or_null (c : FCell) :
    (∃ q, coerceNumCellF c = .num q) ∨ coerceNumCellF c = .null := by
  cases c with
  | str s =>
    cases h : parseFloat s with
    | none => right; simp [coerceNumCellF, h]
    | some q => left; exact ⟨q, by simp [coerceNumCellF, h]⟩
  | num q => exact Or.inl ⟨q, rfl⟩
  | ts t => exact Or.inr rfl
  | null => exact Or.inr rfl

theorem coerceDateCellF_ts_or_null (c : FCell) :
    (∃ t, coerceDateCellF c = .ts t) ∨ coerceDateCellF c = .null := by
  cases c with
  | str s =>
    cases h : parseDate s with
    | none => right; simp [coerceDateCellF, h]
    | some t => left; exact ⟨t, by simp [coerceDateCellF, h]⟩
  | num q => exact Or.inr rfl
  | ts t => exact Or.inl ⟨t, rfl⟩
  | null => exact Or.inr rfl

theorem coercion_chainF (l : List FRow) :
    dropnaDateF (toDatetimeDateColF (dropnaValueF (toNumericValueColF l)))
      = l.filterMap coerceRowF := by
  induction l with
  | nil => rfl
  | cons a l ih =>
    rcases coerceNumCellF_num_or_null a.value with ⟨q, hq⟩ | hq
    · rcases coerceDateCellF_ts_or_null a.date with ⟨t, ht⟩ | ht
      · simp only [toNumericValueColF, dropnaValueF, toDatetimeDateColF, dropnaDateF] at ih ⊢
        simp [List.filter_cons, hq, ht, coerceRowF]
        simpa using ih
      · simp only [toNumericValueColF, dropnaValueF, toDatetimeDateColF, dropnaDateF] at ih ⊢
        simp [List.filter_cons, hq, ht, coerceRowF]
        simpa using ih
    · simp only [toNumericValueColF, dropnaValueF, toDatetimeDateColF, dropnaDateF] at ih ⊢
      simp [List.filter_cons, hq, coerceRowF]
      simpa using ih

theorem coerceRowF_shape {a r : FRow} (h : coerceRowF a = some r) :
    (∃ v, r.value = .num v) ∧ (∃ t, r.date = .ts t) := by
  unfold coerceRowF at h
  split at h
  · rename_i v t hv ht
    cases h
    exact ⟨⟨v, rfl⟩, ⟨t, rfl⟩⟩
  · simp at h

theorem mem_contaminantRowsF {wq : List FRow} {selected : String} {r : FRow} :
    r ∈ contaminantRowsF wq selected ↔
      ∃ a ∈ selectContaminantF wq selected, coerceRowF a = some r := by
  rw [contaminantRowsF, coercion_chainF]
  exact List.mem_filterMap

theorem mem_contaminantRowsF_shape {wq : List FRow} {selected : String} {r : FRow}
    (h : r ∈ contaminantRowsF wq selected) :
    (∃ v, r.value = .num v) ∧ (∃ t, r.date = .ts t) := by
  obtain ⟨a, _, ha⟩ := mem_contaminantRowsF.mp h
  exact coerceRowF_shape ha

theorem mem_of_mem_filteredF {cont : List FRow} {minv maxv : PyFloat} {sd ed : Date} {r : FRow}
    (h : r ∈ filteredF cont minv maxv sd ed) : r ∈ cont :=
  (List.mem_filter.mp h).1

/-! ### Merge lemmas -/

theorem merged_cons (l : LocRow) (ls : List LocRow) (f : List Row) :
    merged (l :: ls) f
      = (f.filter (fun r => r.locId == l.locId)).map (fun r => ⟨l, r⟩) ++ merged ls f := by
  simp [merged]

theorem mem_merged {loc : List LocRow} {f : List Row} {m : MergedRow} :
    m ∈ merged loc f ↔ m.loc ∈ loc ∧ m.wq ∈ f ∧ m.wq.locId = m.loc.locId := by
  simp only [merged, List.mem_flatMap, List.mem_map, List.mem_filter, beq_iff_eq]
  constructor
  · rintro ⟨l, hl, r, ⟨hr, hid⟩, rfl⟩
    exact ⟨hl, hr, hid⟩
  · rintro ⟨hl, hr, hid⟩
    exact ⟨m.loc, hl, m.wq, ⟨hr, hid⟩, rfl⟩

theorem merged_filter_out (ls : List LocRow) (f : List Row) (x : String)
    (hx : ∀ l ∈ ls, l.locId ≠ x) :
    merged ls (f.filter (fun r => r.locId != x)) = merged ls f := by
  induction ls with
  | nil => rfl
  | cons l ls ih =>
    rw [merged_cons, merged_cons, List.filter_filter]
    rw [ih fun l2 h2 => hx l2 (List.mem_cons_of_mem l h2)]
    have : ∀ r ∈ f, ((r.locId == l.locId) && (r.locId != x)) = (r.locId == l.locId) := by
      intro r _
      by_cases h : r.locId = l.locId
      · have hlx : l.locId ≠ x := hx l (List.mem_cons_self l ls)
        simp [h, hlx]
      · simp [h]
    rw [List.filter_congr this]

theorem merged_length_le_of_nodup (loc : List LocRow) (f : List Row)
    (h : (loc.map (fun l => l.locId)).Nodup) :
    (merged loc f).length ≤ f.length := by
  induction loc generalizing f with
  | nil => simp [merged]
  | cons l ls ih =>
    simp only [List.map_cons, List.nodup_cons] at h
    obtain ⟨hl, hls⟩ := h
    rw [merged_cons, List.length_append, List.length_map]
    have hx : ∀ l2 ∈ ls, l2.locId ≠ l.locId := by
      intro l2 h2 heq
      exact hl (heq ▸ List.mem_map_of_mem (fun l3 => l3.locId) h2)
    calc (f.filter (fun r => r.locId == l.locId)).length + (merged ls f).length
        = (f.filter (fun r => r.locId == l.locId)).length
            + (merged ls (f.filter (fun r => r.locId != l.locId))).length := by
          rw [merged_filter_out ls f l.locId hx]
      _ ≤ (f.filter (fun r => r.locId == l.locId)).length
            + (f.filter (fun r => r.locId != l.locId)).length :=
          Nat.add_le_add_left (ih _ hls) _
      _ = f.length := by
          rw [eq_comm]
          have := List.length_eq_length_filter_add (l := f) (fun r => r.locId == l.locId)
          simpa [bne] using this

/-! ### Unique sites, sorting and pipeline-shape lemmas -/

theorem mem_uniqueSitesAux {x : String} :
    ∀ (l seen : List String), x ∈ uniqueSitesAux seen l ↔ x ∈ l ∧ x ∉ seen := by
  intro l
  induction l with
  | nil => intro seen; simp [uniqueSitesAux]
  | cons s rest ih =>
    intro seen
    simp only [uniqueSitesAux]
    by_cases hs : s ∈ seen
    · rw [if_pos hs, ih seen]
      constructor
      · rintro ⟨h1, h2⟩
        exact ⟨List.mem_cons_of_mem s h1, h2⟩
      · rintro ⟨h1, h2⟩
        rcases List.mem_cons.mp h1 with rfl | h1
        · exact absurd hs h2
        · exact ⟨h1, h2⟩
    · rw [if_neg hs]
      simp only [List.mem_cons, ih (s :: seen)]
      constructor
      · rintro (rfl | ⟨h1, h2⟩)
        · exact ⟨Or.inl rfl, hs⟩
        · exact ⟨Or.inr h1, fun hx => h2 (Or.inr hx)⟩
      · rintro ⟨rfl | h1, h2⟩
        · exact Or.inl rfl
        · by_cases hxs : x = s
          · exact Or.inl hxs
          · refine Or.inr ⟨h1, fun hx => ?_⟩
            rcases hx with h | h
            · exact hxs h
            · exact h2 h

theorem mem_uniqueSites {x : String} {ids : List String} :
    x ∈ uniqueSites ids ↔ x ∈ ids := by
  rw [uniqueSites, mem_uniqueSitesAux]
  simp

theorem siteData_perm (filtered : List Row) (site : String) :
    (siteData filtered site).Perm (filtered.filter (fun r => r.locId == site)) :=
  List.perm_insertionSort rowDateRel _

theorem siteData_sorted (filtered : List Row) (site : String) :
    List.Sorted rowDateRel (siteData filtered site) :=
  List.sorted_insertionSort rowDateRel _

theorem runPipeline_of_filtered_nil {loc : List LocRow} {wq : List Row} {selected : String}
    {minv maxv : Dec} {sd ed : Date}
    (h : filtered_wq (contaminantRows wq selected) minv maxv sd ed = []) :
    runPipeline loc wq selected minv maxv sd ed = ⟨[], none, [], [.info noDataMsg]⟩ := by
  unfold runPipeline
  simp [h]

theorem runPipeline_of_merged_nil {loc : List LocRow} {wq : List Row} {selected : String}
    {minv maxv : Dec} {sd ed : Date}
    (h1 : filtered_wq (contaminantRows wq selected) minv maxv sd ed ≠ [])
    (h2 : merged loc (filtered_wq (contaminantRows wq selected) minv maxv sd ed) = []) :
    runPipeline loc wq selected minv maxv sd ed
      = ⟨[], none, trendGroups (filtered_wq (contaminantRows wq selected) minv maxv sd ed),
          [.warning noStationsMsg]⟩ := by
  unfold runPipeline
  simp [h1, h2]

theorem valueColumn_ne_nil {wq : List Row} {selected : String}
    (h : contaminantRows wq selected ≠ []) :
    valueColumn (contaminantRows wq selected) ≠ [] := by
  cases hc : contaminantRows wq selected with
  | nil => exact absurd hc h
  | cons r rest =>
    have hr : r ∈ contaminantRows wq selected := hc ▸ List.mem_cons_self r rest
    obtain ⟨⟨v, hv⟩, _⟩ := mem_contaminantRows_shape hr
    simp [valueColumn, hc, List.filterMap_cons, cellNum, hv]

/-! ### Claims -/

/-- C1 counterexample: the raw value "inf" coerces to a retained IEEE
infinity — `pd.to_numeric` maps it to a non-NaN float, so line 46's
`dropna(subset=[VALUE_COL])` keeps the row — and the row even survives the
range filter over the full float range.  A surviving coerced row therefore
carries a NON-finite value, refuting the claim that after coercion every
retained value is a finite number. -/
theorem finite_value_after_coercion_fails :
    contaminantRowsF exWqInf "Lead" = [rowAInf]
    ∧ rowAInf.value = FCell.num PyFloat.inf
    ∧ PyFloat.inf.isFinite = false
    ∧ rowAInf ∈ filteredF (contaminantRowsF exWqInf "Lead") PyFloat.ninf PyFloat.inf
        ⟨2020, 1, 1⟩ ⟨2020, 12, 31⟩ := by
  decide

/-- C1 amended: after the coercion step every surviving row of the
selected-contaminant subset carries a non-null numeric value and a non-null
timestamp; the coerced subset is exactly the rows of the selection whose
value and date both parse (a row failing either parse is dropped, never
retained with a default), and the same invariant holds for the
range-filtered subset — but the retained value need not be FINITE: value
strings parsing to IEEE infinities survive `dropna` as non-finite
numbers. -/
theorem coercion_nonnull_invariant (wq : List FRow) (selected : String)
    (minv maxv : PyFloat) (sd ed : Date) :
    (∀ r ∈ contaminantRowsF wq selected,
      (∃ v, r.value = FCell.num v) ∧ (∃ t, r.date = FCell.ts t))
    ∧ contaminantRowsF wq selected = (selectContaminantF wq selected).filterMap coerceRowF
    ∧ (∀ r ∈ filteredF (contaminantRowsF wq selected) minv maxv sd ed,
        (∃ v, r.value = FCell.num v) ∧ (∃ t, r.date = FCell.ts t)) :=
  ⟨fun _ h => mem_contaminantRowsF_shape h,
   (coercion_chainF _).symm ▸ rfl,
   fun _ h => mem_contaminantRowsF_shape (mem_of_mem_filteredF h)⟩

/-- C1 witness: the amended invariant evaluated on the infinity frame — the
surviving row's value is a non-null number (the infinity) and its date a
non-null timestamp. -/
theorem coercion_nonnull_invariant_witness :
    (∃ v, rowAInf.value = FCell.num v) ∧ (∃ t, rowAInf.date = FCell.ts t) :=
  (coercion_nonnull_invariant exWqInf "Lead" PyFloat.ninf PyFloat.inf
      ⟨2020, 1, 1⟩ ⟨2020, 12, 31⟩).1 rowAInf (by decide)

/-- C2: the range filter is inclusive at both ends: a coerced row is in the
filtered subset iff it is in the coerced subset and
min_val ≤ value ≤ max_val and start_date ≤ date ≤ end_date; in particular a
row sitting exactly on any boundary is retained. -/
theorem range_filter_inclusive (wq : List Row) (selected : String)
    (minv maxv : Dec) (sd ed : Date) (r : Row) (v : Dec) (t : Date)
    (hv : r.value = Cell.num v) (ht : r.date = Cell.ts t) :
    r ∈ filtered_wq (contaminantRows wq selected) minv maxv sd ed ↔
      (r ∈ contaminantRows wq selected
        ∧ minv ≤ v ∧ v ≤ maxv ∧ sd.key ≤ t.key ∧ t.key ≤ ed.key) := by
  rw [filtered_wq, List.mem_filter]
  simp [keepRow, hv, ht, Date.le, and_assoc]

/-- C2 witness: a row whose value equals both slider bounds and whose date
equals both date bounds is retained. -/
theorem range_filter_inclusive_witness :
    rowA ∈ filtered_wq (contaminantRows exWq "Lead") ⟨125, 1⟩ ⟨125, 1⟩
      ⟨2020, 1, 1⟩ ⟨2020, 1, 1⟩ :=
  (range_filter_inclusive exWq "Lead" ⟨125, 1⟩ ⟨125, 1⟩ ⟨2020, 1, 1⟩ ⟨2020, 1, 1⟩
      rowA ⟨125, 1⟩ ⟨2020, 1, 1⟩ rfl rfl).mpr
    ⟨by decide, by decide, by decide, by decide, by decide⟩

/-- C6: the spec's concrete scenario, end to end: selecting Lead coerces
exWq to the single row A (B dropped for its unparseable value "abc"); the
default value bounds are both 12.5 and the default date strings parse to
2020-01-01 and 2020-02-01; filtering with those full default ranges keeps
exactly row A, and the join against exLoc renders exactly one marker at
(40.0, -74.0) labeled "A". -/
theorem scenario_lead_concrete :
    contaminantRows exWq "Lead" = [rowA]
    ∧ min_val_contaminant (contaminantRows exWq "Lead") = ⟨125, 1⟩
    ∧ max_val_contaminant (contaminantRows exWq "Lead") = ⟨125, 1⟩
    ∧ min_date exWq = some "2020-01-01"
    ∧ max_date exWq = some "2020-02-01"
    ∧ parseDate "2020-01-01" = some ⟨2020, 1, 1⟩
    ∧ parseDate "2020-02-01" = some ⟨2020, 2, 1⟩
    ∧ filtered_wq (contaminantRows exWq "Lead") ⟨125, 1⟩ ⟨125, 1⟩
        ⟨2020, 1, 1⟩ ⟨2020, 2, 1⟩ = [rowA]
    ∧ merged exLoc (filtered_wq (contaminantRows exWq "Lead") ⟨125, 1⟩ ⟨125, 1⟩
        ⟨2020, 1, 1⟩ ⟨2020, 2, 1⟩) = [⟨⟨"A", ⟨40, 0⟩, ⟨-74, 0⟩⟩, rowA⟩]
    ∧ (runPipeline exLoc exWq "Lead" ⟨125, 1⟩ ⟨125, 1⟩ ⟨2020, 1, 1⟩ ⟨2020, 2, 1⟩).markers
        = [⟨⟨40, 0⟩, ⟨-74, 0⟩, "A"⟩] := by
  decide

/-- C9: the pipeline never mutates the uploaded frames: in the heap model of
the script — where line 42's `.copy()` allocates a fresh object and the
column assignments and `dropna(inplace=True)` calls mutate that object —
the objects bound to `wq_df` and `location_df` after a full run are exactly
the loaded frames, for every selection and every range. -/
theorem sources_not_mutated (loc : List LocRow) (wq : List Row) (selected : String)
    (minv maxv : Dec) (sd ed : Date) :
    (runScriptHeap loc wq selected minv maxv sd ed).1
        (runScriptHeap loc wq selected minv maxv sd ed).2.wq_df = some (.wqFrame wq)
    ∧ (runScriptHeap loc wq selected minv maxv sd ed).1
        (runScriptHeap loc wq selected minv maxv sd ed).2.loc_df = some (.locFrame loc) :=
  ⟨rfl, rfl⟩

/-- C3 counterexample: with a location frame that carries identifier A
twice, the inner join of the scenario's one-row filtered subset has two
rows, so the unconditional law |joined| ≤ |filtered| is false. -/
theorem join_card_bound_fails :
    (filtered_wq (contaminantRows exWq "Lead") ⟨0, 0⟩ ⟨20, 0⟩
        ⟨2020, 1, 1⟩ ⟨2020, 12, 31⟩).length = 1
    ∧ (merged dupLoc (filtered_wq (contaminantRows exWq "Lead") ⟨0, 0⟩ ⟨20, 0⟩
        ⟨2020, 1, 1⟩ ⟨2020, 12, 31⟩)).length = 2
    ∧ ¬ ((merged dupLoc (filtered_wq (contaminantRows exWq "Lead") ⟨0, 0⟩ ⟨20, 0⟩
        ⟨2020, 1, 1⟩ ⟨2020, 12, 31⟩)).length
          ≤ (filtered_wq (contaminantRows exWq "Lead") ⟨0, 0⟩ ⟨20, 0⟩
        ⟨2020, 1, 1⟩ ⟨2020, 12, 31⟩).length) := by
  decide

/-- C3 amended: the joined result contains exactly the filtered rows whose
identifier occurs in the location collection (inner join), and under the
precondition that location identifiers are unique — which the code never
checks — the joined result has at most as many rows as the filtered
subset. -/
theorem inner_join_restriction (loc : List LocRow) (wq : List Row) (selected : String)
    (minv maxv : Dec) (sd ed : Date)
    (huniq : (loc.map (fun l => l.locId)).Nodup) :
    (∀ r : Row,
      (∃ m ∈ merged loc (filtered_wq (contaminantRows wq selected) minv maxv sd ed),
        m.wq = r)
        ↔ (r ∈ filtered_wq (contaminantRows wq selected) minv maxv sd ed
            ∧ ∃ l ∈ loc, l.locId = r.locId))
    ∧ (merged loc (filtered_wq (contaminantRows wq selected) minv maxv sd ed)).length
        ≤ (filtered_wq (contaminantRows wq selected) minv maxv sd ed).length := by
  constructor
  · intro r
    constructor
    · rintro ⟨m, hm, rfl⟩
      obtain ⟨h1, h2, h3⟩ := mem_merged.mp hm
      exact ⟨h2, m.loc, h1, h3.symm⟩
    · rintro ⟨hr, l, hl, hid⟩
      exact ⟨⟨l, r⟩, mem_merged.mpr ⟨hl, hr, hid.symm⟩, rfl⟩
  · exact merged_length_le_of_nodup loc _ huniq

/-- C3 witness: the amended law evaluated with the scenario's duplicate-free
location frame. -/
theorem inner_join_restriction_witness :
    ((exLoc.map (fun l => l.locId)).Nodup)
    ∧ (merged exLoc (filtered_wq (contaminantRows exWq "Lead") ⟨0, 0⟩ ⟨20, 0⟩
        ⟨2020, 1, 1⟩ ⟨2020, 12, 31⟩)).length
        ≤ (filtered_wq (contaminantRows exWq "Lead") ⟨0, 0⟩ ⟨20, 0⟩
        ⟨2020, 1, 1⟩ ⟨2020, 12, 31⟩).length :=
  ⟨by decide,
   (inner_join_restriction exLoc exWq "Lead" ⟨0, 0⟩ ⟨20, 0⟩ ⟨2020, 1, 1⟩ ⟨2020, 12, 31⟩
      (by decide)).2⟩

/-- C10: the inner join produces one joined row per (location row, matching
filtered row) pair — its size is the sum over location rows of their match
counts — so with a duplicated location identifier the joined result
concretely outgrows the filtered subset, while |joined| ≤ |filtered| does
hold under the unchecked precondition that location identifiers are
unique. -/
theorem join_multiplicity (loc : List LocRow) (f : List Row) :
    (merged loc f).length
        = (loc.map (fun l => (f.filter (fun r => r.locId == l.locId)).length)).sum
    ∧ ((loc.map (fun l => l.locId)).Nodup → (merged loc f).length ≤ f.length)
    ∧ (filtered_wq (contaminantRows exWq "Lead") ⟨0, 0⟩ ⟨20, 0⟩
        ⟨2020, 1, 1⟩ ⟨2020, 12, 31⟩).length
        < (merged dupLoc (filtered_wq (contaminantRows exWq "Lead") ⟨0, 0⟩ ⟨20, 0⟩
        ⟨2020, 1, 1⟩ ⟨2020, 12, 31⟩)).length := by
  refine ⟨?_, fun h => merged_length_le_of_nodup loc f h, by decide⟩
  rw [merged, List.length_flatMap]
  congr 1
  simp [Function.comp_def]

/-- C10 witness: the pair-count law evaluated on the duplicate-identifier
frame, and the cardinality bound discharged for the duplicate-free frame. -/
theorem join_multiplicity_witness :
    (merged dupLoc exWq).length
        = (dupLoc.map (fun l => (exWq.filter (fun r => r.locId == l.locId)).length)).sum
    ∧ (merged exLoc exWq).length ≤ exWq.length :=
  ⟨(join_multiplicity dupLoc exWq).1, (join_multiplicity exLoc exWq).2.1 (by decide)⟩

/-- C4 counterexample: for exWq4 the code's default start date is the raw
string minimum "2019-01-01" of the WHOLE measurement frame — it comes from
the Arsenic row — while the observed minimum of the coerced date field of
the selected Lead subset is 2020-05-05; they disagree, refuting the claim
that the default date bounds are computed from the selected-contaminant
subset. -/
theorem date_defaults_not_from_subset :
    min_date exWq4 = some "2019-01-01"
    ∧ minDateOfSubsetSpec exWq4 "Lead" = some ⟨2020, 5, 5⟩
    ∧ parseDate "2019-01-01" = some ⟨2019, 1, 1⟩
    ∧ (⟨2019, 1, 1⟩ : Date) ≠ ⟨2020, 5, 5⟩ := by
  decide

/-- C4 amended: the default numeric bounds are the observed min/max of the
coerced value column of the selected-contaminant subset, with [0.0, 1.0]
when that subset is empty; the default date bounds, however, are the
lexicographic min/max of the raw (uncoerced) date column of the ENTIRE
measurement collection, not of the selected subset. -/
theorem default_bounds (wq : List Row) (selected : String) :
    (contaminantRows wq selected = [] →
      min_val_contaminant (contaminantRows wq selected) = ⟨0, 0⟩
      ∧ max_val_contaminant (contaminantRows wq selected) = ⟨1, 0⟩)
    ∧ (contaminantRows wq selected ≠ [] →
        (min_val_contaminant (contaminantRows wq selected)
            ∈ valueColumn (contaminantRows wq selected)
          ∧ ∀ v ∈ valueColumn (contaminantRows wq selected),
              min_val_contaminant (contaminantRows wq selected) ≤ v)
        ∧ (max_val_contaminant (contaminantRows wq selected)
            ∈ valueColumn (contaminantRows wq selected)
          ∧ ∀ v ∈ valueColumn (contaminantRows wq selected),
              v ≤ max_val_contaminant (contaminantRows wq selected)))
    ∧ (rawDateStrings wq ≠ [] →
        ∃ s, min_date wq = some s ∧ s ∈ rawDateStrings wq
          ∧ ∀ s2 ∈ rawDateStrings wq, strLe s s2 = true)
    ∧ (rawDateStrings wq ≠ [] →
        ∃ s, max_date wq = some s ∧ s ∈ rawDateStrings wq
          ∧ ∀ s2 ∈ rawDateStrings wq, strLe s2 s = true) := by
  refine ⟨?_, ?_, ?_, ?_⟩
  · intro h
    rw [min_val_contaminant, max_val_contaminant, h]
    exact ⟨rfl, rfl⟩
  · intro h
    obtain ⟨m, hm⟩ : ∃ m, foldMin decLeb (valueColumn (contaminantRows wq selected)) = some m :=
      foldMin_isSome (valueColumn_ne_nil h)
    obtain ⟨m2, hm2⟩ : ∃ m2, foldMax decLeb (valueColumn (contaminantRows wq selected)) = some m2 := by
      unfold foldMax
      exact foldMin_isSome (valueColumn_ne_nil h)
    constructor
    · rw [min_val_contaminant, hm]
      refine ⟨foldMin_mem hm, fun v hv => ?_⟩
      have := foldMin_le decLeb_total (fun h1 h2 => decLeb_trans h1 h2) hm v hv
      simpa [decLeb] using this
    · rw [max_val_contaminant, hm2]
      refine ⟨foldMax_mem hm2, fun v hv => ?_⟩
      have := foldMax_ge decLeb_total (fun h1 h2 => decLeb_trans h1 h2) hm2 v hv
      simpa [decLeb] using this
  · intro h
    obtain ⟨m, hm⟩ : ∃ m, foldMin strLe (rawDateStrings wq) = some m := foldMin_isSome h
    exact ⟨m, hm, foldMin_mem hm,
      foldMin_le strLe_total (fun h1 h2 => strLe_trans h1 h2) hm⟩
  · intro h
    obtain ⟨m, hm⟩ : ∃ m, foldMax strLe (rawDateStrings wq) = some m := by
      unfold foldMax
      exact foldMin_isSome h
    exact ⟨m, hm, foldMax_mem hm,
      foldMax_ge strLe_total (fun h1 h2 => strLe_trans h1 h2) hm⟩

/-- C4 witness: the empty-subset defaults on exWqBadLead, and the
value-column minimum plus the whole-frame raw date minimum on exWq4. -/
theorem default_bounds_witness :
    (min_val_contaminant (contaminantRows exWqBadLead "Lead") = ⟨0, 0⟩
      ∧ max_val_contaminant (contaminantRows exWqBadLead "Lead") = ⟨1, 0⟩)
    ∧ (min_val_contaminant (contaminantRows exWq4 "Lead")
          ∈ valueColumn (contaminantRows exWq4 "Lead")
        ∧ ∀ v ∈ valueColumn (contaminantRows exWq4 "Lead"),
            min_val_contaminant (contaminantRows exWq4 "Lead") ≤ v)
    ∧ (∃ s, min_date exWq4 = some s ∧ s ∈ rawDateStrings exWq4
        ∧ ∀ s2 ∈ rawDateStrings exWq4, strLe s s2 = true) :=
  ⟨(default_bounds exWqBadLead "Lead").1 (by decide),
   ((default_bounds exWq4 "Lead").2.1 (by decide)).1,
   (default_bounds exWq4 "Lead").2.2.1 (by decide)⟩

/-- C5: the trend output is built from the filtered-but-unjoined subset,
grouped by identifier: each trend group is (up to the sort) exactly the
filtered rows carrying its identifier and is sorted by date ascending; and a
filtered row whose identifier has no match in the location collection is
excluded from the joined result yet still appears in a trend group. -/
theorem trend_from_unjoined (loc : List LocRow) (wq : List Row) (selected : String)
    (minv maxv : Dec) (sd ed : Date) :
    (∀ p ∈ trendGroups (filtered_wq (contaminantRows wq selected) minv maxv sd ed),
      (p.2).Perm ((filtered_wq (contaminantRows wq selected) minv maxv sd ed).filter
          (fun r => r.locId == p.1))
        ∧ List.Sorted rowDateRel p.2)
    ∧ (∀ r ∈ filtered_wq (contaminantRows wq selected) minv maxv sd ed,
        (∀ l ∈ loc, l.locId ≠ r.locId) →
          (∀ m ∈ merged loc (filtered_wq (contaminantRows wq selected) minv maxv sd ed),
            m.wq ≠ r)
          ∧ ∃ p ∈ trendGroups (filtered_wq (contaminantRows wq selected) minv maxv sd ed),
              r ∈ p.2) := by
  constructor
  · intro p hp
    simp only [trendGroups] at hp
    obtain ⟨s, hs, rfl⟩ := List.mem_map.mp hp
    exact ⟨siteData_perm _ s, siteData_sorted _ s⟩
  · intro r hr hnone
    constructor
    · intro m hm heq
      obtain ⟨h1, h2, h3⟩ := mem_merged.mp hm
      exact hnone m.loc h1 (by rw [← heq, h3])
    · refine ⟨(r.locId,
        siteData (filtered_wq (contaminantRows wq selected) minv maxv sd ed) r.locId),
        ?_, ?_⟩
      · simp only [trendGroups]
        apply List.mem_map.mpr
        refine ⟨r.locId, ?_, rfl⟩
        exact mem_uniqueSites.mpr (List.mem_map.mpr ⟨r, hr, rfl⟩)
      · rw [(siteData_perm _ r.locId).mem_iff]
        exact List.mem_filter.mpr ⟨hr, by simp⟩

/-- C5 witness: station B of exWq5 has no row in exLoc; its filtered row is
absent from the join but present in a trend group. -/
theorem trend_from_unjoined_witness :
    (∀ m ∈ merged exLoc (filtered_wq (contaminantRows exWq5 "Lead") ⟨0, 0⟩ ⟨20, 0⟩
        ⟨2020, 1, 1⟩ ⟨2020, 12, 31⟩), m.wq ≠ rowB5)
    ∧ ∃ p ∈ trendGroups (filtered_wq (contaminantRows exWq5 "Lead") ⟨0, 0⟩ ⟨20, 0⟩
        ⟨2020, 1, 1⟩ ⟨2020, 12, 31⟩), rowB5 ∈ p.2 :=
  (trend_from_unjoined exLoc exWq5 "Lead" ⟨0, 0⟩ ⟨20, 0⟩ ⟨2020, 1, 1⟩ ⟨2020, 12, 31⟩).2
    rowB5 (by decide) (by decide)

/-- C7 counterexample: with the contaminant column absent from the
measurement frame, the very first access (line 38) raises a KeyError that no
handler catches — the script ends in an unhandled exception rather than the
handled, user-visible error the claim promises for every missing column. -/
theorem missing_column_unhandled :
    runColScript fullLocCols wqColsNoCont true true
      = .error (.keyError CONTAMINANT_COL) := by
  rfl

/-- C7 amended: a missing expected column raises a KeyError naming it at its
point of first use, and only a latitude/longitude KeyError inside the
map-rendering block is caught and surfaced as a handled user-visible error
naming the column; every other missing column propagates as an unhandled
exception. -/
theorem missing_column_behaviour (locCols wqCols : Cols) (fne mne : Bool) :
    (CONTAMINANT_COL ∉ wqCols.cols →
      runColScript locCols wqCols fne mne = .error (.keyError CONTAMINANT_COL))
    ∧ (CONTAMINANT_COL ∈ wqCols.cols → VALUE_COL ∉ wqCols.cols →
      runColScript locCols wqCols fne mne = .error (.keyError VALUE_COL))
    ∧ (CONTAMINANT_COL ∈ wqCols.cols → VALUE_COL ∈ wqCols.cols →
       DATE_COL ∉ wqCols.cols →
      runColScript locCols wqCols fne mne = .error (.keyError DATE_COL))
    ∧ (CONTAMINANT_COL ∈ wqCols.cols → VALUE_COL ∈ wqCols.cols →
       DATE_COL ∈ wqCols.cols → LOCATION_ID_COL_LOC ∉ locCols.cols →
      runColScript locCols wqCols true mne = .error (.keyError LOCATION_ID_COL_LOC))
    ∧ (CONTAMINANT_COL ∈ wqCols.cols → VALUE_COL ∈ wqCols.cols →
       DATE_COL ∈ wqCols.cols → LOCATION_ID_COL_LOC ∈ locCols.cols →
       LOCATION_ID_COL_WQ ∈ wqCols.cols →
       LATITUDE_COL ∉ locCols.cols → LATITUDE_COL ∉ wqCols.cols →
      runColScript locCols wqCols true true = .ok [latLonErrMsg LATITUDE_COL]) := by
  refine ⟨?_, ?_, ?_, ?_, ?_⟩
  · intro h1
    simp [runColScript, getCol, h1, Bind.bind, Except.bind]
  · intro h1 h2
    simp [runColScript, getCol, h1, h2, Bind.bind, Except.bind]
  · intro h1 h2 h3
    simp [runColScript, getCol, h1, h2, h3, Bind.bind, Except.bind]
  · intro h1 h2 h3 h4
    simp [runColScript, getCol, h1, h2, h3, h4, Bind.bind, Except.bind]
  · intro h1 h2 h3 h4 h5 h6 h7
    simp [runColScript, getCol, h1, h2, h3, h4, h5, h6, h7, List.mem_append,
      Bind.bind, Except.bind, Pure.pure, Except.pure]

/-- C7 witness: the contaminant-column KeyError escapes unhandled on the
concrete frames, while a missing latitude column on otherwise complete
frames is caught and reported by the map block. -/
theorem missing_column_behaviour_witness :
    runColScript fullLocCols wqColsNoCont false false
      = .error (.keyError CONTAMINANT_COL)
    ∧ runColScript locColsNoLat fullWqCols true true
      = .ok [latLonErrMsg LATITUDE_COL] :=
  ⟨(missing_column_behaviour fullLocCols wqColsNoCont false false).1 (by decide),
   (missing_column_behaviour locColsNoLat fullWqCols true true).2.2.2.2
     (by decide) (by decide) (by decide) (by decide) (by decide) (by decide) (by decide)⟩

/-- C8 counterexample: the "no data at all" state (the coerced Lead subset
of exWqBadLead is empty) and the "no data in range" state (exWq's Lead row
survives coercion but the range [0, 1] excludes it) emit the SAME st.info
message, so the three empty states do not carry distinct messages. -/
theorem empty_state_messages_share_text :
    contaminantRows exWqBadLead "Lead" = []
    ∧ contaminantRows exWq "Lead" ≠ []
    ∧ (runPipeline exLoc exWqBadLead "Lead" ⟨0, 0⟩ ⟨1, 0⟩
        ⟨2020, 1, 1⟩ ⟨2020, 12, 31⟩).msgs = [.info noDataMsg]
    ∧ (runPipeline exLoc exWq "Lead" ⟨0, 0⟩ ⟨1, 0⟩
        ⟨2020, 1, 1⟩ ⟨2020, 12, 31⟩).msgs = [.info noDataMsg] := by
  decide

/-- C8 amended: empty results are valid terminal states, never exceptions:
an empty filtered subset yields empty outputs with exactly the informational
no-data message (one shared text covering both "no data at all" and "no data
in range"), a non-empty filtered subset whose join is empty yields exactly
the distinct no-stations warning, and the two texts differ. -/
theorem empty_results_informational (loc : List LocRow) (wq : List Row) (selected : String)
    (minv maxv : Dec) (sd ed : Date) :
    (filtered_wq (contaminantRows wq selected) minv maxv sd ed = [] →
      runPipeline loc wq selected minv maxv sd ed = ⟨[], none, [], [.info noDataMsg]⟩)
    ∧ (filtered_wq (contaminantRows wq selected) minv maxv sd ed ≠ [] →
       merged loc (filtered_wq (contaminantRows wq selected) minv maxv sd ed) = [] →
      runPipeline loc wq selected minv maxv sd ed
        = ⟨[], none, trendGroups (filtered_wq (contaminantRows wq selected) minv maxv sd ed),
            [.warning noStationsMsg]⟩)
    ∧ noDataMsg ≠ noStationsMsg := by
  refine ⟨fun h => runPipeline_of_filtered_nil h,
    fun h1 h2 => runPipeline_of_merged_nil h1 h2, by decide⟩

/-- C8 witness: the no-data branch on exWqBadLead and the no-stations branch
on exWq5 against exLoc. -/
theorem empty_results_informational_witness :
    runPipeline exLoc exWqBadLead "Lead" ⟨0, 0⟩ ⟨1, 0⟩ ⟨2020, 1, 1⟩ ⟨2020, 12, 31⟩
      = ⟨[], none, [], [.info noDataMsg]⟩
    ∧ runPipeline exLoc exWq5 "Lead" ⟨0, 0⟩ ⟨20, 0⟩ ⟨2020, 1, 1⟩ ⟨2020, 12, 31⟩
      = ⟨[], none,
          trendGroups (filtered_wq (contaminantRows exWq5 "Lead") ⟨0, 0⟩ ⟨20, 0⟩
            ⟨2020, 1, 1⟩ ⟨2020, 12, 31⟩),
          [.warning noStationsMsg]⟩ :=
  ⟨(empty_results_informational exLoc exWqBadLead "Lead" ⟨0, 0⟩ ⟨1, 0⟩
      ⟨2020, 1, 1⟩ ⟨2020, 12, 31⟩).1 (by decide),
   (empty_results_informational exLoc exWq5 "Lead" ⟨0, 0⟩ ⟨20, 0⟩
      ⟨2020, 1, 1⟩ ⟨2020, 12, 31⟩).2.1 (by decide) (by decide)⟩

end WaterQuality
